import Mathlib

/-!
Verification of the Tegra GPU command front-end core (register file layout,
method dispatch, and the syncpoint manager) against its specification.

The register file layout, `MethodCall`, `EngineID` and the semaphore-address
accessor are embedded directly from the `Tegra::GPU` header.  The bodies of
the syncpoint and dispatch operations are declared in the header but their
translation unit is not part of the sources at hand, so those operations are
modelled from the specification (each such definition is marked
`Modelled from the spec:`).
-/

namespace Tegra

/-- The named fields of `Tegra::GPU::Regs` (the C++ struct members that are
not padding), in declaration order. -/
inductive RegField where
  | semaphore_address
  | semaphore_sequence
  | semaphore_trigger
  | reference_count
  | semaphore_acquire
  | semaphore_release
  | fence_value
  | fence_action
  | acquire_mode
  | acquire_source
  | acquire_active
  | acquire_timeout
  | acquire_value
  deriving DecidableEq, Repr

namespace Regs

/-- `Regs::NUM_REGS` from the source: the register array holds `0x100`
32-bit words. -/
def NUM_REGS : Nat := 0x100

/-- The layout of the `Regs` union struct, in declaration order: each entry
is an optional named field (`none` for `INSERT_UNION_PADDING_WORDS`) together
with its width in 32-bit words.  Transcribed from the struct body:
padding 0x4; semaphore_address (address_high, address_low: 2 words);
semaphore_sequence; semaphore_trigger; padding 0xC; reference_count;
padding 0x5; semaphore_acquire; semaphore_release; fence_value; fence_action;
padding 0xE2; acquire_mode; acquire_source; acquire_active; acquire_timeout;
acquire_value. -/
def layout : List (Option RegField × Nat) :=
  [(none, 0x4),
   (some .semaphore_address, 2),
   (some .semaphore_sequence, 1),
   (some .semaphore_trigger, 1),
   (none, 0xC),
   (some .reference_count, 1),
   (none, 0x5),
   (some .semaphore_acquire, 1),
   (some .semaphore_release, 1),
   (some .fence_value, 1),
   (some .fence_action, 1),
   (none, 0xE2),
   (some .acquire_mode, 1),
   (some .acquire_source, 1),
   (some .acquire_active, 1),
   (some .acquire_timeout, 1),
   (some .acquire_value, 1)]

/-- Scan the layout accumulating word offsets until the requested field. -/
def wordOffsetAux : List (Option RegField × Nat) → Nat → RegField → Option Nat
  | [], _, _ => none
  | (entry, width) :: rest, acc, f =>
    if entry = some f then some acc else wordOffsetAux rest (acc + width) f

/-- The word index at which a named field starts inside the register image. -/
def wordOffset (f : RegField) : Option Nat :=
  wordOffsetAux layout 0 f

/-- The byte offset of a named field (`offsetof(GPU::Regs, field)`): each
word is 4 bytes. -/
def byteOffset (f : RegField) : Option Nat :=
  (wordOffset f).map (· * 4)

/-- All named fields of the register image. -/
def namedFields : List RegField :=
  [.semaphore_address, .semaphore_sequence, .semaphore_trigger,
   .reference_count, .semaphore_acquire, .semaphore_release,
   .fence_value, .fence_action,
   .acquire_mode, .acquire_source, .acquire_active, .acquire_timeout,
   .acquire_value]

end Regs

/-- The `semaphore_address` register pair: `address_high` at the lower word
index, `address_low` right after it, both 32-bit values. -/
structure SemaphoreAddressReg where
  address_high : Nat
  address_low : Nat

/-- `Regs::semaphore_address::SemaphoreAddress()` from the source:
`(GPUVAddr(address_high) << 32) | address_low`, computed in a 64-bit
unsigned integer. -/
def SemaphoreAddressReg.SemaphoreAddress (r : SemaphoreAddressReg) : Nat :=
  ((r.address_high <<< 32) ||| r.address_low) % 2 ^ 64

/-- `GPU::MethodCall` from the source: method index, 32-bit argument,
subchannel and repeat count. -/
structure MethodCall where
  method : Nat
  argument : Nat
  subchannel : Nat
  method_count : Nat
  deriving DecidableEq, Repr

/-- `MethodCall::IsLastCall()` from the source: `method_count <= 1`. -/
def MethodCall.IsLastCall (mc : MethodCall) : Bool :=
  mc.method_count ≤ 1

/-- `Tegra::EngineID` from the source. -/
inductive EngineID where
  | FERMI_TWOD_A
  | MAXWELL_B
  | KEPLER_COMPUTE_B
  | KEPLER_INLINE_TO_MEMORY_B
  | MAXWELL_DMA_COPY_A
  deriving DecidableEq, Repr

/-- The numeric value of each `EngineID` enumerator from the source. -/
def EngineID.code : EngineID → Nat
  | .FERMI_TWOD_A => 0x902D
  | .MAXWELL_B => 0xB197
  | .KEPLER_COMPUTE_B => 0xB1C0
  | .KEPLER_INLINE_TO_MEMORY_B => 0xA140
  | .MAXWELL_DMA_COPY_A => 0xB0B5

end Tegra

namespace Tegra.GPU

/-- `bound_engines` from the source: a fixed table of 8 subchannel slots;
a slot is either bound to an engine or unbound (`none`). -/
structure DispatchState where
  bound_engines : Fin 8 → Option EngineID

/-- Modelled from the spec: the puller's Bind operation (the body of
`GPU::ProcessBindMethod` is not among the sources) writes the engine
identity into the binding-table slot named by the invocation's
subchannel. -/
def processBind (st : DispatchState) (subchannel : Fin 8) (e : EngineID) :
    DispatchState :=
  ⟨fun i => if i = subchannel then some e else st.bound_engines i⟩

/-- The observable outcome of dispatching one method invocation. -/
inductive DispatchResult where
  | pullerLocal (mc : MethodCall)
  | engineForward (e : EngineID) (method argument method_count : Nat)
  | unboundSubchannelError
  deriving DecidableEq, Repr

/-- Modelled from the spec: `GPU::CallMethod` (its body is not among the
sources).  `reserved` is the hardware-specific boundary of the puller's
reserved method-index range, a configuration constant per the spec.  A
method index inside the reserved range is handled by the puller; otherwise
the invocation's {method index, argument, repeat count} is forwarded
unchanged to the engine bound to its subchannel, and dispatching on an
unbound (or out-of-range) subchannel is a hard error. -/
def CallMethod (reserved : Nat) (st : DispatchState) (mc : MethodCall) :
    DispatchResult :=
  if mc.method < reserved then
    .pullerLocal mc
  else if h : mc.subchannel < 8 then
    match st.bound_engines ⟨mc.subchannel, h⟩ with
    | some e => .engineForward e mc.method mc.argument mc.method_count
    | none => .unboundSubchannelError
  else
    .unboundSubchannelError

/-- The syncpoint manager state: `syncpoints` is the array of 32-bit
counters (`counters id < 2 ^ 32` in every reachable state) and
`syncpt_interrupts` holds, per syncpoint, the ordered list of pending
interrupt thresholds. -/
structure SyncState where
  syncpoints : Nat → Nat
  syncpt_interrupts : Nat → List Nat

/-- The initial syncpoint state: every counter zero, no pending
interrupts. -/
def initSyncState : SyncState :=
  ⟨fun _ => 0, fun _ => []⟩

/-- `GPU::GetSyncpointValue` — a snapshot of the counter. -/
def GetSyncpointValue (s : SyncState) (id : Nat) : Nat :=
  s.syncpoints id

/-- Modelled from the spec: `GPU::IncrementSyncPoint` (its body is not among
the sources).  It adds 1 to the counter modulo `2 ^ 32`, then scans the
pending interrupts of that syncpoint: every entry whose threshold is now
satisfied (threshold at most the new counter value) fires the CPU-interrupt
callback once and is removed.  The returned list is the sequence of
`TriggerCpuInterrupt (id, threshold)` callbacks fired during the call. -/
def IncrementSyncPoint (s : SyncState) (id : Nat) :
    SyncState × List (Nat × Nat) :=
  let v := (s.syncpoints id + 1) % 2 ^ 32
  let fired := (s.syncpt_interrupts id).filter (fun t => decide (t ≤ v))
  let remaining := (s.syncpt_interrupts id).filter (fun t => decide (v < t))
  (⟨fun i => if i = id then v else s.syncpoints i,
    fun i => if i = id then remaining else s.syncpt_interrupts i⟩,
   fired.map (fun t => (id, t)))

/-- Modelled from the spec: `GPU::RegisterSyncptInterrupt` (its body is not
among the sources).  It appends a pending request; if the counter has
already reached the target value at registration time, the request fires
immediately (synchronously) instead of being queued.  Duplicate identical
requests are each queued.  The returned list is the sequence of callbacks
fired synchronously inside the call. -/
def RegisterSyncptInterrupt (s : SyncState) (id value : Nat) :
    SyncState × List (Nat × Nat) :=
  if value ≤ s.syncpoints id then
    (s, [(id, value)])
  else
    (⟨s.syncpoints,
      fun i => if i = id then s.syncpt_interrupts i ++ [value]
               else s.syncpt_interrupts i⟩,
     [])

/-- Modelled from the spec: `GPU::CancelSyncptInterrupt` (its body is not
among the sources).  It removes one pending entry matching the id and
target value if present, returning whether a match was found and removed;
otherwise it changes nothing and returns `false`. -/
def CancelSyncptInterrupt (s : SyncState) (id value : Nat) :
    SyncState × Bool :=
  if value ∈ s.syncpt_interrupts id then
    (⟨s.syncpoints,
      fun i => if i = id then (s.syncpt_interrupts i).erase value
               else s.syncpt_interrupts i⟩,
     true)
  else
    (s, false)

/-- Modelled from the spec: the unblocking guard of `GPU::WaitFence` (its
body is not among the sources).  `WaitFence id value` blocks the calling
context until the counter satisfies `GetSyncpointValue id >= value`; this
predicate states exactly when the wait may return. -/
def waitFenceUnblocked (s : SyncState) (id value : Nat) : Bool :=
  value ≤ GetSyncpointValue s id

/-- Run a sequence of `IncrementSyncPoint` calls (one syncpoint id per list
element), collecting the fired callbacks in order. -/
def runIncrements (s : SyncState) : List Nat → SyncState × List (Nat × Nat)
  | [] => (s, [])
  | id :: rest =>
    let step := IncrementSyncPoint s id
    let restRun := runIncrements step.1 rest
    (restRun.1, step.2 ++ restRun.2)

end Tegra.GPU

namespace Tegra.GPU

/-- A value failing a Boolean filter predicate never occurs in the filtered
list. -/
theorem count_filter_eq_zero {p : Nat → Bool} {v : Nat} (h : p v = false)
    (l : List Nat) : (l.filter p).count v = 0 := by
  apply List.count_eq_zero.mpr
  intro hmem
  have hv := (List.mem_filter.mp hmem).2
  rw [h] at hv
  exact Bool.noConfusion hv

/-- Counting a pair `(id, v)` in a list of pairs tagged with a different
first component gives zero. -/
theorem count_pair_map_ne {id op v : Nat} (h : op ≠ id) (l : List Nat) :
    (l.map (fun t => (op, t))).count (id, v) = 0 := by
  apply List.count_eq_zero.mpr
  intro hmem
  obtain ⟨t, _, ht⟩ := List.mem_map.mp hmem
  exact h (congrArg Prod.fst ht)

/-- After a run of increments, each counter equals its initial value plus
the number of increments addressed to it, modulo `2 ^ 32`. -/
theorem runIncrements_syncpoints (ops : List Nat) :
    ∀ (s : SyncState) (id : Nat),
      s.syncpoints id % 2 ^ 32 = s.syncpoints id →
      (runIncrements s ops).1.syncpoints id
        = (s.syncpoints id + ops.count id) % 2 ^ 32 := by
  induction ops with
  | nil =>
    intro s id h
    simpa [runIncrements] using h.symm
  | cons op rest ih =>
    intro s id h
    by_cases hop : op = id
    · subst hop
      have hstep : (IncrementSyncPoint s op).1.syncpoints op
          = (s.syncpoints op + 1) % 2 ^ 32 := by
        simp [IncrementSyncPoint]
      have hrec := ih (IncrementSyncPoint s op).1 op
        (by rw [hstep]; exact Nat.mod_mod_of_dvd _ dvd_rfl)
      simp only [runIncrements]
      rw [hrec, hstep, Nat.mod_add_mod, List.count_cons]
      simp only [beq_self_eq_true, if_true]
      congr 1
      omega
    · have hstep : (IncrementSyncPoint s op).1.syncpoints id
          = s.syncpoints id := by
        simp [IncrementSyncPoint, Ne.symm hop]
      have hrec := ih (IncrementSyncPoint s op).1 id (by rw [hstep]; exact h)
      simp only [runIncrements]
      rw [hrec, hstep, List.count_cons]
      have : (op == id) = false := beq_eq_false_iff_ne.mpr hop
      simp [this]

/-- If no pending entry for `V` exists on syncpoint `id`, then no run of
increments ever fires an `(id, V)` callback, and no such entry ever
appears. -/
theorem runIncrements_no_pending (ops : List Nat) :
    ∀ (s : SyncState) (id V : Nat),
      (s.syncpt_interrupts id).count V = 0 →
      (runIncrements s ops).2.count (id, V) = 0 ∧
      ((runIncrements s ops).1.syncpt_interrupts id).count V = 0 := by
  induction ops with
  | nil =>
    intro s id V h
    simpa [runIncrements] using h
  | cons op rest ih =>
    intro s id V h
    have hsub : ∀ p : Nat → Bool,
        (((s.syncpt_interrupts id).filter p).count V) = 0 := by
      intro p
      have := List.Sublist.count_le (List.filter_sublist
        (l := s.syncpt_interrupts id) (p := p)) V
      omega
    have hstep1 : ((IncrementSyncPoint s op).1.syncpt_interrupts id).count V
        = 0 := by
      by_cases hop : op = id
      · subst hop
        simp only [IncrementSyncPoint, if_pos rfl]
        exact hsub _
      · simp [IncrementSyncPoint, Ne.symm hop, h]
    have hstep2 : (IncrementSyncPoint s op).2.count (id, V) = 0 := by
      by_cases hop : op = id
      · subst hop
        simp only [IncrementSyncPoint]
        apply List.count_eq_zero.mpr
        intro hmem
        obtain ⟨t, htmem, ht⟩ := List.mem_map.mp hmem
        have ht2 : t = V := congrArg Prod.snd ht
        subst ht2
        exact (List.count_eq_zero.mp h) (List.mem_filter.mp htmem).1
      · exact count_pair_map_ne hop _
    have hrec := ih (IncrementSyncPoint s op).1 id V hstep1
    simp only [runIncrements, List.count_append]
    exact ⟨by rw [hstep2, hrec.1], hrec.2⟩

/-- Counting a pair `(op, v)` among pairs tagged with `op` counts the
second components. -/
theorem count_pair_map_self (op v : Nat) (l : List Nat) :
    (l.map (fun t => (op, t))).count (op, v) = l.count v := by
  induction l with
  | nil => rfl
  | cons a l ih =>
    simp only [List.map_cons, List.count_cons, ih]
    congr 1
    by_cases hav : a = v
    · subst hav
      simp
    · have h1 : (((op, a) : Nat × Nat) == (op, v)) = false :=
        beq_eq_false_iff_ne.mpr (by simp [hav])
      have h2 : (a == v) = false := beq_eq_false_iff_ne.mpr hav
      rw [h1, h2]

/-- On an increment of syncpoint `id` with pre-counter `c` such that
`c + 1 < 2 ^ 32`, the fired callbacks of the step contain `(id, V)` as
many times as `V` is pending if `V ≤ c + 1`, and zero times otherwise;
the remaining queue keeps the complementary count.  This is the
single-step firing behavior. -/
theorem incrementStep_fire (s : SyncState) (id V : Nat)
    (hmod : s.syncpoints id + 1 < 2 ^ 32) :
    (IncrementSyncPoint s id).2.count (id, V)
        = (if V ≤ s.syncpoints id + 1
           then (s.syncpt_interrupts id).count V else 0) ∧
    ((IncrementSyncPoint s id).1.syncpt_interrupts id).count V
        = (if V ≤ s.syncpoints id + 1
           then 0 else (s.syncpt_interrupts id).count V) ∧
    (IncrementSyncPoint s id).1.syncpoints id = s.syncpoints id + 1 := by
  have hm : s.syncpoints id + 1 < 4294967296 := by omega
  have hfired : (IncrementSyncPoint s id).2
      = ((s.syncpt_interrupts id).filter
          (fun t => decide (t ≤ s.syncpoints id + 1))).map (fun t => (id, t)) := by
    simp [IncrementSyncPoint, Nat.mod_eq_of_lt hm]
  have hqueue : (IncrementSyncPoint s id).1.syncpt_interrupts id
      = (s.syncpt_interrupts id).filter
          (fun t => decide (s.syncpoints id + 1 < t)) := by
    simp [IncrementSyncPoint, Nat.mod_eq_of_lt hm]
  have hcounter : (IncrementSyncPoint s id).1.syncpoints id
      = s.syncpoints id + 1 := by
    simp [IncrementSyncPoint, Nat.mod_eq_of_lt hm]
  refine ⟨?_, ?_, hcounter⟩
  · rw [hfired, count_pair_map_self]
    by_cases hV : V ≤ s.syncpoints id + 1
    · rw [if_pos hV]
      exact List.count_filter (decide_eq_true hV)
    · rw [if_neg hV]
      exact count_filter_eq_zero (decide_eq_false hV) _
  · rw [hqueue]
    by_cases hV : V ≤ s.syncpoints id + 1
    · rw [if_pos hV]
      exact count_filter_eq_zero (decide_eq_false (by omega)) _
    · rw [if_neg hV]
      exact List.count_filter (decide_eq_true (by omega))

/-- The central firing lemma: starting from a state whose counter for `id`
is below the threshold `V`, over any run of increments (of any syncpoint
ids, without 32-bit wraparound on `id`), the number of `(id, V)` callbacks
fired equals the number of pending `V`-entries exactly when the counter
has reached `V`, and those entries leave the queue at that point. -/
theorem runIncrements_pending_fire (ops : List Nat) :
    ∀ (s : SyncState) (id V : Nat),
      s.syncpoints id + ops.count id < 2 ^ 32 →
      s.syncpoints id < V →
      (runIncrements s ops).2.count (id, V)
          = (if V ≤ s.syncpoints id + ops.count id
             then (s.syncpt_interrupts id).count V else 0) ∧
      ((runIncrements s ops).1.syncpt_interrupts id).count V
          = (if V ≤ s.syncpoints id + ops.count id
             then 0 else (s.syncpt_interrupts id).count V) := by
  induction ops with
  | nil =>
    intro s id V hlt hcv
    have hno : ¬ V ≤ s.syncpoints id := by omega
    simp [runIncrements, hno]
  | cons op rest ih =>
    intro s id V hlt hcv
    by_cases hop : op = id
    · subst hop
      have hcount : (op :: rest).count op = rest.count op + 1 := by
        rw [List.count_cons]
        simp
      rw [hcount] at hlt ⊢
      have hstep := incrementStep_fire s op V (by omega)
      by_cases hV : V ≤ s.syncpoints op + 1
      · have hgone : ((IncrementSyncPoint s op).1.syncpt_interrupts op).count V
            = 0 := by rw [hstep.2.1, if_pos hV]
        have hzero := runIncrements_no_pending rest
          (IncrementSyncPoint s op).1 op V hgone
        have hcond : V ≤ s.syncpoints op + (rest.count op + 1) := by omega
        constructor
        · simp only [runIncrements, List.count_append]
          rw [hstep.1, if_pos hV, hzero.1, Nat.add_zero, if_pos hcond]
        · simp only [runIncrements]
          rw [hzero.2, if_pos hcond]
      · have hlt2 : (IncrementSyncPoint s op).1.syncpoints op + rest.count op
            < 2 ^ 32 := by rw [hstep.2.2]; omega
        have hcv2 : (IncrementSyncPoint s op).1.syncpoints op < V := by
          rw [hstep.2.2]; omega
        have hrec := ih (IncrementSyncPoint s op).1 op V hlt2 hcv2
        have hqkeep : ((IncrementSyncPoint s op).1.syncpt_interrupts op).count V
            = (s.syncpt_interrupts op).count V := by
          rw [hstep.2.1, if_neg hV]
        rw [hqkeep, hstep.2.2] at hrec
        have harith : s.syncpoints op + 1 + rest.count op
            = s.syncpoints op + (rest.count op + 1) := by omega
        rw [harith] at hrec
        constructor
        · simp only [runIncrements, List.count_append]
          rw [hstep.1, if_neg hV, Nat.zero_add, hrec.1]
        · simp only [runIncrements]
          exact hrec.2
    · have hcount : (op :: rest).count id = rest.count id := by
        rw [List.count_cons]
        simp [beq_eq_false_iff_ne.mpr hop]
      rw [hcount] at hlt ⊢
      have hskeep : (IncrementSyncPoint s op).1.syncpoints id
          = s.syncpoints id := by
        simp [IncrementSyncPoint, Ne.symm hop]
      have hqkeep : (IncrementSyncPoint s op).1.syncpt_interrupts id
          = s.syncpt_interrupts id := by
        simp [IncrementSyncPoint, Ne.symm hop]
      have hfired0 : (IncrementSyncPoint s op).2.count (id, V) = 0 := by
        simp only [IncrementSyncPoint]
        exact count_pair_map_ne hop _
      have hrec := ih (IncrementSyncPoint s op).1 id V
        (by rw [hskeep]; exact hlt) (by rw [hskeep]; exact hcv)
      rw [hskeep, hqkeep] at hrec
      constructor
      · simp only [runIncrements, List.count_append]
        rw [hfired0, Nat.zero_add, hrec.1]
      · simp only [runIncrements]
        exact hrec.2

end Tegra.GPU

namespace Tegra

/-- Claim C1: the byte offsets of the named register-file fields are fixed
exactly as the hardware contract requires: `semaphore_address` at word
index 0x4, `semaphore_sequence` at 0x6, `semaphore_trigger` at 0x7,
`reference_count` at 0x14, `semaphore_acquire` at 0x1A,
`semaphore_release` at 0x1B, `fence_value` at 0x1C, `fence_action` at
0x1D, and the acquire fields at word indices 0x100 through 0x104, each
word being 4 bytes. -/
theorem claim_C1_reg_positions :
    Regs.byteOffset .semaphore_address = some (0x4 * 4) ∧
    Regs.byteOffset .semaphore_sequence = some (0x6 * 4) ∧
    Regs.byteOffset .semaphore_trigger = some (0x7 * 4) ∧
    Regs.byteOffset .reference_count = some (0x14 * 4) ∧
    Regs.byteOffset .semaphore_acquire = some (0x1A * 4) ∧
    Regs.byteOffset .semaphore_release = some (0x1B * 4) ∧
    Regs.byteOffset .fence_value = some (0x1C * 4) ∧
    Regs.byteOffset .fence_action = some (0x1D * 4) ∧
    Regs.byteOffset .acquire_mode = some (0x100 * 4) ∧
    Regs.byteOffset .acquire_source = some (0x101 * 4) ∧
    Regs.byteOffset .acquire_active = some (0x102 * 4) ∧
    Regs.byteOffset .acquire_timeout = some (0x103 * 4) ∧
    Regs.byteOffset .acquire_value = some (0x104 * 4) := by
  decide

/-- Claim C8 counterexample: the register array has `NUM_REGS = 0x100`
words, but the named field `acquire_mode` sits at word index 0x100 = 256,
which is not below 256 — so it is not the case that every named field's
word index is below the array size; the acquire fields are not addressable
through the 256-word array. -/
theorem claim_C8_counterexample :
    RegField.acquire_mode ∈ Regs.namedFields ∧
    Regs.wordOffset .acquire_mode = some 256 ∧
    ¬ (Regs.namedFields.all
        (fun f => (Regs.wordOffset f).any
          (fun i => decide (i < Regs.NUM_REGS))) = true) := by
  decide

/-- Claim C8 (amended): the register file array has exactly 256 32-bit
words; the semaphore, reference-count and fence fields all lie at word
indices below 256 and are addressable through the array, but the five
puller acquire fields occupy word indices 0x100 through 0x104, which lie
at or beyond the end of the 256-word array. -/
theorem claim_C8_amended_layout :
    Regs.NUM_REGS = 256 ∧
    ([RegField.semaphore_address, .semaphore_sequence, .semaphore_trigger,
      .reference_count, .semaphore_acquire, .semaphore_release,
      .fence_value, .fence_action].all
        (fun f => (Regs.wordOffset f).any
          (fun i => decide (i < Regs.NUM_REGS))) = true) ∧
    ([RegField.acquire_mode, .acquire_source, .acquire_active,
      .acquire_timeout, .acquire_value].all
        (fun f => (Regs.wordOffset f).any
          (fun i => decide (Regs.NUM_REGS ≤ i ∧ i ≤ 0x104))) = true) := by
  decide

/-- Claim C9: a method invocation is classified as the final call of a
repeated-argument run exactly when its repeat count is at most 1:
`MethodCall::IsLastCall()` returns true iff `method_count <= 1`. -/
theorem claim_C9_is_last_call (mc : MethodCall) :
    mc.IsLastCall = true ↔ mc.method_count ≤ 1 := by
  simp [MethodCall.IsLastCall]

/-- Claim C10: for 32-bit register values, `SemaphoreAddress()` returns
the 64-bit guest address `address_high * 2 ^ 32 + address_low`
(`address_high` in the upper 32 bits, `address_low` in the lower 32). -/
theorem claim_C10_semaphore_address (r : SemaphoreAddressReg)
    (hh : r.address_high < 2 ^ 32) (hl : r.address_low < 2 ^ 32) :
    r.SemaphoreAddress = r.address_high * 2 ^ 32 + r.address_low := by
  unfold SemaphoreAddressReg.SemaphoreAddress
  rw [Nat.shiftLeft_eq, Nat.mul_comm, ← Nat.mul_add_lt_is_or hl]
  have hbound : 2 ^ 32 * r.address_high + r.address_low < 2 ^ 64 := by
    calc 2 ^ 32 * r.address_high + r.address_low
        < 2 ^ 32 * r.address_high + 2 ^ 32 := Nat.add_lt_add_left hl _
      _ = 2 ^ 32 * (r.address_high + 1) := by ring
      _ ≤ 2 ^ 32 * 2 ^ 32 := Nat.mul_le_mul_left _ hh
      _ = 2 ^ 64 := by norm_num
  rw [Nat.mod_eq_of_lt hbound, Nat.mul_comm]

/-- Witness for C10 at `address_high = 3`, `address_low = 5`. -/
theorem claim_C10_witness :
    (3 : Nat) < 2 ^ 32 ∧ (5 : Nat) < 2 ^ 32 ∧
    SemaphoreAddressReg.SemaphoreAddress ⟨3, 5⟩ = 3 * 2 ^ 32 + 5 :=
  ⟨by norm_num, by norm_num,
   claim_C10_semaphore_address ⟨3, 5⟩ (by norm_num) (by norm_num)⟩

/-- Claim C7: for every method invocation whose method index lies outside
the puller's reserved range, `CallMethod` forwards {method index,
argument, repeat count} unchanged to the engine bound to the invocation's
subchannel (a slot set by a prior Bind), and dispatching such an
invocation on a subchannel with no prior Bind yields the hard dispatch
error rather than being silently tolerated. -/
theorem claim_C7_engine_forwarding (reserved : Nat) (st : GPU.DispatchState)
    (mc : MethodCall) (hm : reserved ≤ mc.method) (hs : mc.subchannel < 8) :
    (∀ e, st.bound_engines ⟨mc.subchannel, hs⟩ = some e →
      GPU.CallMethod reserved st mc =
        .engineForward e mc.method mc.argument mc.method_count) ∧
    (st.bound_engines ⟨mc.subchannel, hs⟩ = none →
      GPU.CallMethod reserved st mc = .unboundSubchannelError) ∧
    (∀ e, GPU.CallMethod reserved
        (GPU.processBind st ⟨mc.subchannel, hs⟩ e) mc =
        .engineForward e mc.method mc.argument mc.method_count) := by
  have hnm : ¬ mc.method < reserved := Nat.not_lt.mpr hm
  refine ⟨fun e he => ?_, fun he => ?_, fun e => ?_⟩
  · simp [GPU.CallMethod, hnm, hs, he]
  · simp [GPU.CallMethod, hnm, hs, he]
  · simp [GPU.CallMethod, GPU.processBind, hnm, hs]

/-- Claim C2: for every syncpoint id and every finite sequence of
increments starting from the initial state, `GetSyncpointValue id` equals
the number of increments applied to that id modulo `2 ^ 32`, and
incrementing one id leaves the counter of every other id unchanged. -/
theorem claim_C2_syncpoint_counting (ops : List Nat) (id : Nat)
    (s : GPU.SyncState) (j : Nat) :
    GPU.GetSyncpointValue (GPU.runIncrements GPU.initSyncState ops).1 id
      = ops.count id % 2 ^ 32 ∧
    (j ≠ id →
      (GPU.IncrementSyncPoint s id).1.syncpoints j = s.syncpoints j) := by
  constructor
  · have h := GPU.runIncrements_syncpoints ops GPU.initSyncState id
      (by simp [GPU.initSyncState])
    simpa [GPU.GetSyncpointValue, GPU.initSyncState] using h
  · intro hj
    simp [GPU.IncrementSyncPoint, hj]

/-- Witness for C2: three increments of syncpoint 0 and one of syncpoint 1
leave counter 0 at 2, and an increment of id 0 does not change counter 1. -/
theorem claim_C2_witness :
    GPU.GetSyncpointValue (GPU.runIncrements GPU.initSyncState [0, 0, 1]).1 0
      = 2 ∧
    (1 : Nat) ≠ 0 ∧
    (GPU.IncrementSyncPoint GPU.initSyncState 0).1.syncpoints 1
      = GPU.initSyncState.syncpoints 1 := by
  refine ⟨?_, one_ne_zero,
    (claim_C2_syncpoint_counting [0, 0, 1] 0 GPU.initSyncState 1).2
      one_ne_zero⟩
  have h := (claim_C2_syncpoint_counting [0, 0, 1] 0 GPU.initSyncState 1).1
  have h2 : ([0, 0, 1] : List Nat).count 0 % 2 ^ 32 = 2 := by decide
  exact h.trans h2

/-- Claim C3: a pending interrupt request registered for `(id, V)` while
the counter is still below `V` fires its CPU-interrupt callback exactly
once — the fired-callback count over any subsequent increment run is 1
exactly when the run brings the counter to `V` or beyond, and 0 before —
and the entry leaves the pending queue at that same point, so it can never
fire again. -/
theorem claim_C3_fires_exactly_once (s : GPU.SyncState) (id V : Nat)
    (ops : List Nat)
    (hcv : s.syncpoints id < V)
    (hnp : (s.syncpt_interrupts id).count V = 0)
    (hlt : s.syncpoints id + ops.count id < 2 ^ 32) :
    ((GPU.runIncrements
        (GPU.RegisterSyncptInterrupt s id V).1 ops).2.count (id, V)
      = if V ≤ s.syncpoints id + ops.count id then 1 else 0) ∧
    (((GPU.runIncrements
        (GPU.RegisterSyncptInterrupt s id V).1 ops).1.syncpt_interrupts
          id).count V
      = if V ≤ s.syncpoints id + ops.count id then 0 else 1) := by
  have hcond : ¬ V ≤ s.syncpoints id := by omega
  have hS : (GPU.RegisterSyncptInterrupt s id V).1.syncpoints id
      = s.syncpoints id := by
    simp [GPU.RegisterSyncptInterrupt, hcond]
  have hQ : ((GPU.RegisterSyncptInterrupt s id V).1.syncpt_interrupts
      id).count V = 1 := by
    simp [GPU.RegisterSyncptInterrupt, hcond, hnp]
  have h := GPU.runIncrements_pending_fire ops
    (GPU.RegisterSyncptInterrupt s id V).1 id V
    (by rw [hS]; exact hlt) (by rw [hS]; exact hcv)
  rw [hS, hQ] at h
  exact h

/-- Witness for C3: register threshold 2 on syncpoint 0 of the fresh
state, then increment three times: the callback count is exactly 1 and
the entry is gone from the queue. -/
theorem claim_C3_witness :
    GPU.initSyncState.syncpoints 0 < 2 ∧
    ((GPU.runIncrements (GPU.RegisterSyncptInterrupt GPU.initSyncState 0 2).1
        [0, 0, 0]).2.count (0, 2) = 1) ∧
    (((GPU.runIncrements (GPU.RegisterSyncptInterrupt GPU.initSyncState 0 2).1
        [0, 0, 0]).1.syncpt_interrupts 0).count 2 = 0) := by
  have h := claim_C3_fires_exactly_once GPU.initSyncState 0 2 [0, 0, 0]
    (by decide) (by decide) (by decide)
  refine ⟨by decide, ?_, ?_⟩
  · have h2 := h.1
    simpa [List.count_cons] using h2
  · have h2 := h.2
    simpa [List.count_cons] using h2

/-- Claim C4: if the counter has already reached the value at registration
time, `RegisterSyncptInterrupt` fires the callback synchronously inside
the call and queues nothing; otherwise an entry is appended (leaving the
counters and every other queue untouched), and registering the same
`(id, value)` twice queues both copies — over a subsequent run of
increments both fire, none is dropped. -/
theorem claim_C4_register_behavior (s : GPU.SyncState) (id value : Nat) :
    (value ≤ s.syncpoints id →
      GPU.RegisterSyncptInterrupt s id value = (s, [(id, value)])) ∧
    (s.syncpoints id < value →
      (GPU.RegisterSyncptInterrupt s id value).2 = [] ∧
      (GPU.RegisterSyncptInterrupt s id value).1.syncpoints = s.syncpoints ∧
      (GPU.RegisterSyncptInterrupt s id value).1.syncpt_interrupts id
        = s.syncpt_interrupts id ++ [value] ∧
      ∀ j, j ≠ id →
        (GPU.RegisterSyncptInterrupt s id value).1.syncpt_interrupts j
          = s.syncpt_interrupts j) ∧
    (s.syncpoints id < value →
      ((GPU.RegisterSyncptInterrupt
          (GPU.RegisterSyncptInterrupt s id value).1 id
          value).1.syncpt_interrupts id).count value
        = (s.syncpt_interrupts id).count value + 2) ∧
    (∀ ops : List Nat, s.syncpoints id < value →
      (s.syncpt_interrupts id).count value = 0 →
      s.syncpoints id + ops.count id < 2 ^ 32 →
      (GPU.runIncrements
          (GPU.RegisterSyncptInterrupt
            (GPU.RegisterSyncptInterrupt s id value).1 id value).1
          ops).2.count (id, value)
        = if value ≤ s.syncpoints id + ops.count id then 2 else 0) := by
  refine ⟨fun h => ?_, fun h => ?_, fun h => ?_, fun ops h hnp hlt => ?_⟩
  · simp [GPU.RegisterSyncptInterrupt, h]
  · have hc : ¬ value ≤ s.syncpoints id := by omega
    exact ⟨by simp [GPU.RegisterSyncptInterrupt, hc],
      by simp [GPU.RegisterSyncptInterrupt, hc],
      by simp [GPU.RegisterSyncptInterrupt, hc],
      fun j hj => by simp [GPU.RegisterSyncptInterrupt, hc, hj]⟩
  · have hc : ¬ value ≤ s.syncpoints id := by omega
    simp [GPU.RegisterSyncptInterrupt, hc]
  · have hc : ¬ value ≤ s.syncpoints id := by omega
    have hS : (GPU.RegisterSyncptInterrupt
        (GPU.RegisterSyncptInterrupt s id value).1 id value).1.syncpoints id
        = s.syncpoints id := by
      simp [GPU.RegisterSyncptInterrupt, hc]
    have hQ : ((GPU.RegisterSyncptInterrupt
        (GPU.RegisterSyncptInterrupt s id value).1 id
        value).1.syncpt_interrupts id).count value = 2 := by
      simp [GPU.RegisterSyncptInterrupt, hc, hnp]
    have hfire := GPU.runIncrements_pending_fire ops
      (GPU.RegisterSyncptInterrupt
        (GPU.RegisterSyncptInterrupt s id value).1 id value).1 id value
      (by rw [hS]; exact hlt) (by rw [hS]; exact h)
    rw [hS, hQ] at hfire
    exact hfire.1

/-- Witness for C4: registering value 0 on a fresh state fires
synchronously; registering value 5 queues it, and a double registration of
5 leaves two pending copies. -/
theorem claim_C4_witness :
    GPU.RegisterSyncptInterrupt GPU.initSyncState 0 0
      = (GPU.initSyncState, [(0, 0)]) ∧
    (GPU.RegisterSyncptInterrupt GPU.initSyncState 0 5).2 = [] ∧
    ((GPU.RegisterSyncptInterrupt
        (GPU.RegisterSyncptInterrupt GPU.initSyncState 0 5).1 0
        5).1.syncpt_interrupts 0).count 5
      = (GPU.initSyncState.syncpt_interrupts 0).count 5 + 2 :=
  ⟨(claim_C4_register_behavior GPU.initSyncState 0 0).1 (by decide),
   ((claim_C4_register_behavior GPU.initSyncState 0 5).2.1 (by decide)).1,
   (claim_C4_register_behavior GPU.initSyncState 0 5).2.2.1 (by decide)⟩

/-- Claim C5: `CancelSyncptInterrupt` removes exactly one pending entry
matching `(id, value)` and returns true when one exists (leaving counters
and the other queues untouched, and — when it was the only copy —
preventing the entry from ever firing on any later run of increments); it
returns false and changes nothing when no matching entry exists, in
particular after the entry has already fired and been removed. -/
theorem claim_C5_cancel_behavior (s : GPU.SyncState) (id value : Nat) :
    (value ∈ s.syncpt_interrupts id →
      (GPU.CancelSyncptInterrupt s id value).2 = true ∧
      (GPU.CancelSyncptInterrupt s id value).1.syncpoints = s.syncpoints ∧
      ((GPU.CancelSyncptInterrupt s id value).1.syncpt_interrupts id).count
          value
        = (s.syncpt_interrupts id).count value - 1 ∧
      ∀ j, j ≠ id →
        (GPU.CancelSyncptInterrupt s id value).1.syncpt_interrupts j
          = s.syncpt_interrupts j) ∧
    (value ∉ s.syncpt_interrupts id →
      GPU.CancelSyncptInterrupt s id value = (s, false)) ∧
    (∀ ops : List Nat, (s.syncpt_interrupts id).count value = 1 →
      (GPU.runIncrements
          (GPU.CancelSyncptInterrupt s id value).1 ops).2.count (id, value)
        = 0) := by
  refine ⟨fun h => ?_, fun h => ?_, fun ops h1 => ?_⟩
  · exact ⟨by simp [GPU.CancelSyncptInterrupt, h],
      by simp [GPU.CancelSyncptInterrupt, h],
      by simp [GPU.CancelSyncptInterrupt, h],
      fun j hj => by simp [GPU.CancelSyncptInterrupt, h, hj]⟩
  · simp [GPU.CancelSyncptInterrupt, h]
  · have hmem : value ∈ s.syncpt_interrupts id := by
      by_contra hm
      rw [List.count_eq_zero.mpr hm] at h1
      exact absurd h1 (by decide)
    have hq0 : ((GPU.CancelSyncptInterrupt s id value).1.syncpt_interrupts
        id).count value = 0 := by
      simp [GPU.CancelSyncptInterrupt, hmem, h1]
    exact (GPU.runIncrements_no_pending ops _ id value hq0).1

/-- Witness for C5: cancelling the single registered entry (0, 5) returns
true and no callback ever fires for it afterwards; cancelling on the
fresh state returns false and changes nothing. -/
theorem claim_C5_witness :
    (GPU.CancelSyncptInterrupt
      (GPU.RegisterSyncptInterrupt GPU.initSyncState 0 5).1 0 5).2 = true ∧
    GPU.CancelSyncptInterrupt GPU.initSyncState 0 5
      = (GPU.initSyncState, false) ∧
    (GPU.runIncrements
        (GPU.CancelSyncptInterrupt
          (GPU.RegisterSyncptInterrupt GPU.initSyncState 0 5).1 0 5).1
        [0, 0, 0, 0, 0]).2.count (0, 5) = 0 :=
  ⟨((claim_C5_cancel_behavior
      (GPU.RegisterSyncptInterrupt GPU.initSyncState 0 5).1 0 5).1
      (by decide)).1,
   (claim_C5_cancel_behavior GPU.initSyncState 0 5).2.1 (by decide),
   (claim_C5_cancel_behavior
      (GPU.RegisterSyncptInterrupt GPU.initSyncState 0 5).1 0 5).2.2
      [0, 0, 0, 0, 0] (by decide)⟩

/-- Claim C6: the `WaitFence id V` guard holds exactly when
`GetSyncpointValue id >= V` — the wait can never unblock while the counter
is below `V`, and once an increment makes the counter reach or exceed `V`
the wait is unblocked. -/
theorem claim_C6_wait_fence (s : GPU.SyncState) (id V j : Nat) :
    (GPU.waitFenceUnblocked s id V = true ↔ V ≤ GPU.GetSyncpointValue s id) ∧
    (V ≤ (GPU.IncrementSyncPoint s j).1.syncpoints id →
      GPU.waitFenceUnblocked (GPU.IncrementSyncPoint s j).1 id V = true) := by
  constructor
  · simp [GPU.waitFenceUnblocked]
  · intro h
    simp [GPU.waitFenceUnblocked, GPU.GetSyncpointValue, h]

/-- Witness for C6: after one increment of syncpoint 0 the counter is 1,
so a wait for value 1 is unblocked. -/
theorem claim_C6_witness :
    (1 : Nat) ≤ (GPU.IncrementSyncPoint GPU.initSyncState 0).1.syncpoints 0 ∧
    GPU.waitFenceUnblocked
      (GPU.IncrementSyncPoint GPU.initSyncState 0).1 0 1 = true := by
  have h1 : (1 : Nat)
      ≤ (GPU.IncrementSyncPoint GPU.initSyncState 0).1.syncpoints 0 := by
    decide
  exact ⟨h1, (claim_C6_wait_fence GPU.initSyncState 0 1 0).2 h1⟩

/-- Witness for C7: with the reserved boundary 0x40, binding subchannel 2
to the 3D engine and dispatching method 0x100 on it forwards the call
unchanged; dispatching on the unbound table is the hard error. -/
theorem claim_C7_witness :
    GPU.CallMethod 0x40
        (GPU.processBind ⟨fun _ => none⟩ ⟨2, by norm_num⟩ .MAXWELL_B)
        ⟨0x100, 7, 2, 1⟩ = .engineForward .MAXWELL_B 0x100 7 1 ∧
    GPU.CallMethod 0x40 ⟨fun _ => none⟩ ⟨0x100, 7, 2, 1⟩ =
      .unboundSubchannelError :=
  ⟨(claim_C7_engine_forwarding 0x40 ⟨fun _ => none⟩ ⟨0x100, 7, 2, 1⟩
      (by norm_num) (by norm_num)).2.2 .MAXWELL_B,
   (claim_C7_engine_forwarding 0x40 ⟨fun _ => none⟩ ⟨0x100, 7, 2, 1⟩
      (by norm_num) (by norm_num)).2.1 rfl⟩

end Tegra
